import Mathlib

/-!
Verification model of the `circuit_proof` module: the R1CS constraint-system
proof orchestration (`R1CSProof::prove` / `R1CSProof::verify` in
`src/circuit_proof/mod.rs`) together with the prover and verifier session
protocols it drives.

Only `mod.rs` of the module is available as source; the session submodules
(`prover.rs`, `verifier.rs`, `assignment.rs`, `linear_combination.rs`,
`cs.rs`, `opaque_scalar.rs`) are modelled from the specification.  The
elliptic-curve group is, per the specification, an external collaborator
consumed as an opaque algebra; it is modelled by perfectly binding
homomorphic commitments represented by their openings, and the inner-product
argument is modelled by its stated contract (a certificate that a committed
vector pair has a claimed inner product).  The Fiat-Shamir transcript is
modelled as the list of absorbed scalars together with an arbitrary
deterministic challenge-derivation function.
-/

namespace CircuitProof

/-- Error kinds of the proving/verification pipeline, following the error
design of the specification: constraint violations (prover-side), malformed
inputs (wrong commitment counts, undersized generator sets, mismatched
vector lengths), failed verification checks, and caller-defined gadget
errors propagated verbatim (the numeric code models the
application-defined payload). -/
inductive R1CSError where
  | constraintViolation
  | malformedInput
  | verificationFailed
  | gadgetError (code : ℕ)
deriving DecidableEq, Repr

/-- Modelled from the spec: `Assignment<T>` (from the missing
`assignment.rs`) is a two-variant value, `Known(scalar)` on the prover side
and `Unknown` on the verifier side. -/
inductive Assignment (S : Type) where
  | Known (value : S)
  | Unknown
deriving DecidableEq, Repr

/-- Modelled from the spec: `OpaqueScalar` (from the missing
`opaque_scalar.rs`), the verifier-side scalar wrapper whose arithmetic never
exposes structure; in the model it simply wraps the scalar field. -/
structure OpaqueScalar (F : Type) where
  internal : F
deriving DecidableEq, Repr

/-- Modelled from the spec: the role tag of a wire slot — committed input,
multiplication-gate left/right/output, or the constant-one wire (from the
missing `cs.rs`). -/
inductive VariableIndex where
  | Committed (j : ℕ)
  | MultiplierLeft (i : ℕ)
  | MultiplierRight (i : ℕ)
  | MultiplierOutput (i : ℕ)
  | One
deriving DecidableEq, Repr

/-- Modelled from the spec: a variable handle pairing a wire slot with its
(side-dependent) assignment. -/
structure Variable (S : Type) where
  index : VariableIndex
  assignment : Assignment S
deriving DecidableEq, Repr

/-- Modelled from the spec: a `LinearCombination` (from the missing
`linear_combination.rs`) — an ordered sequence of (wire, weight) pairs plus
a constant scalar. -/
structure LinearCombination (F : Type) where
  terms : List (VariableIndex × F)
  constant : F
deriving DecidableEq, Repr

/-- Modelled from the spec: a Pedersen commitment to one scalar.  The
commitment is represented by its opening (perfectly binding ideal
commitment); it stands in for the `CompressedRistretto` point of the
source. -/
structure PedersenCom (F : Type) where
  value : F
  blinding : F
deriving DecidableEq, Repr

/-- Modelled from the spec: a Pedersen vector commitment (exponents over the
G-vector generators, the H-vector generators, and the blinding generator),
represented by its opening; it stands in for a `CompressedRistretto`
point. -/
structure VecCom (F : Type) where
  gVec : List F
  hVec : List F
  blind : F
deriving DecidableEq, Repr

/-- Modelled from the spec: the inner-product argument is an external
sub-protocol consumed by contract — its proof certifies that a committed
vector pair has a claimed inner product.  The model keeps the two vectors as
the proof data; the logarithmic-size recursion is out of scope. -/
structure InnerProductProof (F : Type) where
  lVec : List F
  rVec : List F
deriving DecidableEq, Repr

/-- Modelled from the spec: the vector-commitment generator set, of which
only the capacity (the number of multiplication gates it can support) is
behaviourally relevant; an undersized set is detected at commit time. -/
structure BulletproofGens where
  gensCapacity : ℕ
deriving DecidableEq, Repr

/-- Modelled from the spec: the scalar-commitment generator set.  In the
ideal-algebra model the generators themselves carry no behaviour. -/
structure PedersenGens where
deriving DecidableEq, Repr

/-- The proof structure of `src/circuit_proof/mod.rs` (struct `R1CSProof`,
lines 46-74): commitments `A_I` (input wires), `A_O` (output wires), `S`
(blinding vector); commitments `T_1, T_3, T_4, T_5, T_6` to the coefficients
of the degree-6 polynomial `t(x)` (with `t_0` and `t_2` omitted); the
evaluation `t_x`; the blinding scalars `t_x_blinding` and `e_blinding`; and
the inner-product sub-proof `ipp_proof`. -/
structure R1CSProof (F : Type) where
  A_I : VecCom F
  A_O : VecCom F
  S : VecCom F
  T_1 : PedersenCom F
  T_3 : PedersenCom F
  T_4 : PedersenCom F
  T_5 : PedersenCom F
  T_6 : PedersenCom F
  t_x : F
  t_x_blinding : F
  e_blinding : F
  ipp_proof : InnerProductProof F
deriving DecidableEq, Repr

variable {F : Type} [Field F] [DecidableEq F]

/-- Flattened transcript contribution of a scalar commitment. -/
def pedComFlat (c : PedersenCom F) : List F := [c.value, c.blinding]

/-- Flattened transcript contribution of a vector commitment. -/
def vecComFlat (c : VecCom F) : List F := c.gVec ++ c.hVec ++ [c.blind]

/-- Flattened transcript contribution of a list of scalar commitments. -/
def pedListFlat (l : List (PedersenCom F)) : List F :=
  (l.map pedComFlat).flatten

/-- Modelled from the spec: Fiat-Shamir challenge derivation — an arbitrary
deterministic function of everything absorbed into the transcript so far.
The model's challenge is never the zero scalar (a zero challenge occurs with
negligible probability in the real protocol and is excluded from the
model). -/
def challengeScalar (t : List F) : F :=
  let r := t.foldl (fun a s => a * 31 + s + 7) 5
  if r = 0 then 1 else r

/-- Inner product of two vectors of scalars. -/
def dotF {n : ℕ} (a b : Fin n → F) : F := ∑ i, a i * b i

/-- View of a list as a length-`n` vector, padding with zero. -/
def vecD (l : List F) (n : ℕ) : Fin n → F := fun i => l.getD i 0

/-- Total weight a term list places on one wire slot. -/
def weightOnTerms (terms : List (VariableIndex × F)) (idx : VariableIndex) : F :=
  (terms.map fun t => if t.1 = idx then t.2 else 0).sum

/-- Total weight a linear combination places on one wire slot. -/
def LinearCombination.weightOn (lc : LinearCombination F) (idx : VariableIndex) : F :=
  weightOnTerms lc.terms idx

/-- Evaluation of a linear combination under a concrete wire lookup. -/
def LinearCombination.eval (lc : LinearCombination F) (look : VariableIndex → F) : F :=
  (lc.terms.map fun t => t.2 * look t.1).sum + lc.constant

/-- A linear combination references only wires allocated in a system with
`n` multiplication gates and `m` committed inputs. -/
def VariableIndex.inBounds (n m : ℕ) : VariableIndex → Prop
  | .Committed j => j < m
  | .MultiplierLeft i => i < n
  | .MultiplierRight i => i < n
  | .MultiplierOutput i => i < n
  | .One => True

instance (n m : ℕ) (idx : VariableIndex) : Decidable (idx.inBounds n m) := by
  cases idx <;> simp [VariableIndex.inBounds] <;> infer_instance

/-- A linear combination is well-formed for a system with `n` gates and `m`
committed inputs when all its terms reference allocated wires. -/
def LinearCombination.wf (lc : LinearCombination F) (n m : ℕ) : Prop :=
  ∀ t ∈ lc.terms, t.1.inBounds n m

instance (lc : LinearCombination F) (n m : ℕ) : Decidable (lc.wf n m) := by
  unfold LinearCombination.wf; infer_instance

/-- Concrete wire lookup determined by the prover's value tables. -/
def assignmentOf (v aL aR aO : List F) : VariableIndex → F
  | .Committed j => v.getD j 0
  | .MultiplierLeft i => aL.getD i 0
  | .MultiplierRight i => aR.getD i 0
  | .MultiplierOutput i => aO.getD i 0
  | .One => 1

/-- Flattening of the registered linear constraints against the
multiplication-left wires: row `q` is weighted by `z^(q+1)`. -/
def flatWL (cs : List (LinearCombination F)) (z : F) (n : ℕ) : Fin n → F :=
  fun i => ∑ q ∈ Finset.range cs.length,
    z ^ (q + 1) * (cs.getD q ⟨[], 0⟩).weightOn (.MultiplierLeft i)

/-- Flattening against the multiplication-right wires. -/
def flatWR (cs : List (LinearCombination F)) (z : F) (n : ℕ) : Fin n → F :=
  fun i => ∑ q ∈ Finset.range cs.length,
    z ^ (q + 1) * (cs.getD q ⟨[], 0⟩).weightOn (.MultiplierRight i)

/-- Flattening against the multiplication-output wires. -/
def flatWO (cs : List (LinearCombination F)) (z : F) (n : ℕ) : Fin n → F :=
  fun i => ∑ q ∈ Finset.range cs.length,
    z ^ (q + 1) * (cs.getD q ⟨[], 0⟩).weightOn (.MultiplierOutput i)

/-- Flattening against the committed-input wires (moved to the right-hand
side of the flattened equation, hence the sign). -/
def flatWV (cs : List (LinearCombination F)) (z : F) (m : ℕ) : Fin m → F :=
  fun j => ∑ q ∈ Finset.range cs.length,
    z ^ (q + 1) * (-(cs.getD q ⟨[], 0⟩).weightOn (.Committed j))

/-- Flattened public constant of the registered linear constraints (the
constant term and the weight on the constant-one wire, moved to the
right-hand side). -/
def flatWc (cs : List (LinearCombination F)) (z : F) : F :=
  ∑ q ∈ Finset.range cs.length,
    z ^ (q + 1) *
      (-((cs.getD q ⟨[], 0⟩).constant + (cs.getD q ⟨[], 0⟩).weightOn .One))

/-- The publicly computable scalar `delta(y, z)` entering the constant
coefficient reconstruction of `t(x)`. -/
def deltaYZ (cs : List (LinearCombination F)) (y z : F) (n : ℕ) : F :=
  dotF (fun i => (y⁻¹) ^ (i : ℕ) * flatWR cs z n i) (flatWL cs z n)

/-- Modelled from the spec: the prover-side building session (`ProverCS`
from the missing `prover.rs`): it owns the generator capacity, the
transcript, the caller's secret values and their blinding factors, the
growing multiplication-gate value tables, and the growing list of linear
constraints. -/
structure ProverCS (F : Type) where
  bpCapacity : ℕ
  transcript : List F
  v : List F
  v_blinding : List F
  aL : List F
  aR : List F
  aO : List F
  constraints : List (LinearCombination F)
deriving DecidableEq, Repr

/-- Modelled from the spec: the committed prover session — wire assignments
finalized, blinding sampled, the three vector commitments absorbed into the
transcript, and the challenges `y`, `z` drawn. -/
structure CommittedProverCS (F : Type) where
  transcript : List F
  v : List F
  v_blinding : List F
  aL : List F
  aR : List F
  aO : List F
  constraints : List (LinearCombination F)
  iBlind : F
  oBlind : F
  sBlind : F
  sL : List F
  sR : List F
  comAI : VecCom F
  comAO : VecCom F
  comS : VecCom F
  chalY : F
  chalZ : F
deriving DecidableEq, Repr

/-- Modelled from the spec: the verifier-side building session (`VerifierCS`
from the missing `verifier.rs`): it holds only the received input
commitments and the symbolic constraint structure. -/
structure VerifierCS (F : Type) where
  bpCapacity : ℕ
  transcript : List F
  V : List (PedersenCom F)
  numMults : ℕ
  constraints : List (LinearCombination F)
deriving DecidableEq, Repr

/-- Modelled from the spec: the committed verifier session, ready to check a
supplied proof. -/
structure CommittedVerifierCS (F : Type) where
  transcript : List F
  V : List (PedersenCom F)
  numMults : ℕ
  constraints : List (LinearCombination F)
deriving DecidableEq, Repr

/-- Modelled from the spec: `ProverCS::new` — constructs the prover session
bound to the public parameters and the transcript, computes one Pedersen
commitment per supplied secret (in order), absorbs them, and returns the
session together with the committed-input variable handles (assignments
`Known`) and the commitment list. -/
def ProverCS.new (bp_gens : BulletproofGens) (_pc_gens : PedersenGens)
    (transcript : List F) (v v_blinding : List F) :
    ProverCS F × List (Variable F) × List (PedersenCom F) :=
  let commitments : List (PedersenCom F) :=
    (List.range v.length).map fun j => ⟨v.getD j 0, v_blinding.getD j 0⟩
  let vars : List (Variable F) :=
    (List.range v.length).map fun j => ⟨.Committed j, .Known (v.getD j 0)⟩
  (⟨bp_gens.gensCapacity, transcript ++ pedListFlat commitments,
    v, v_blinding, [], [], [], []⟩, vars, commitments)

/-- Modelled from the spec: prover-side `allocate_multiplier` with its hint
pair — records the left/right values, derives the output value, and returns
the three variable handles; effects are checked only at commit time. -/
def ProverCS.allocateMultiplier (p : ProverCS F) (l r : F) :
    ProverCS F × Variable F × Variable F × Variable F :=
  let i := p.aL.length
  ({ p with aL := p.aL ++ [l], aR := p.aR ++ [r], aO := p.aO ++ [l * r] },
   ⟨.MultiplierLeft i, .Known l⟩, ⟨.MultiplierRight i, .Known r⟩,
   ⟨.MultiplierOutput i, .Known (l * r)⟩)

/-- Modelled from the spec: `constrain` appends a linear combination that
must evaluate to zero; infallible at call time. -/
def ProverCS.constrain (p : ProverCS F) (lc : LinearCombination F) : ProverCS F :=
  { p with constraints := p.constraints ++ [lc] }

/-- Gate satisfaction: every multiplication gate's output value is the
product of its left and right values. -/
def ProverCS.mulSat (p : ProverCS F) : Prop :=
  ∀ i ∈ List.range p.aL.length,
    p.aL.getD i 0 * p.aR.getD i 0 = p.aO.getD i 0

/-- Linear-constraint satisfaction: every registered linear combination
evaluates to zero under the concrete wire assignment. -/
def ProverCS.linSat (p : ProverCS F) : Prop :=
  ∀ lc ∈ p.constraints, lc.eval (assignmentOf p.v p.aL p.aR p.aO) = 0

instance (p : ProverCS F) : Decidable p.mulSat := by
  unfold ProverCS.mulSat; infer_instance

instance (p : ProverCS F) : Decidable p.linSat := by
  unfold ProverCS.linSat; infer_instance

/-- The prover's sampled left blinding vector (commit-phase randomness). -/
def commitSL (p : ProverCS F) (rng : ℕ → F) : List F :=
  List.ofFn fun i : Fin p.aL.length => rng (3 + (i : ℕ))

/-- The prover's sampled right blinding vector. -/
def commitSR (p : ProverCS F) (rng : ℕ → F) : List F :=
  List.ofFn fun i : Fin p.aL.length => rng (3 + p.aL.length + (i : ℕ))

/-- The prover's input-wire vector commitment `A_I`. -/
def commitAI (p : ProverCS F) (rng : ℕ → F) : VecCom F :=
  ⟨List.ofFn (vecD p.aL p.aL.length), List.ofFn (vecD p.aR p.aL.length), rng 0⟩

/-- The prover's output-wire vector commitment `A_O`. -/
def commitAO (p : ProverCS F) (rng : ℕ → F) : VecCom F :=
  ⟨List.ofFn (vecD p.aO p.aL.length), List.ofFn (fun _ : Fin p.aL.length => (0 : F)),
   rng 1⟩

/-- The prover's blinding-vector commitment `S`. -/
def commitScom (p : ProverCS F) (rng : ℕ → F) : VecCom F :=
  ⟨commitSL p rng, commitSR p rng, rng 2⟩

/-- The transcript after the prover's commit phase absorbed `A_I`, `A_O`,
`S`. -/
def commitTr (p : ProverCS F) (rng : ℕ → F) : List F :=
  p.transcript ++ vecComFlat (commitAI p rng) ++ vecComFlat (commitAO p rng)
    ++ vecComFlat (commitScom p rng)

/-- Modelled from the spec: the data computed by a successful prover commit
phase — finalized gate tables, freshly sampled blinding (from the
randomness source `rng`), the vector commitments `A_I`, `A_O`, `S`, the
updated transcript, and the challenges `y`, `z`. -/
def commitResult (p : ProverCS F) (rng : ℕ → F) : CommittedProverCS F :=
  { transcript := commitTr p rng
    v := p.v, v_blinding := p.v_blinding
    aL := p.aL, aR := p.aR, aO := p.aO
    constraints := p.constraints
    iBlind := rng 0, oBlind := rng 1, sBlind := rng 2
    sL := commitSL p rng, sR := commitSR p rng
    comAI := commitAI p rng, comAO := commitAO p rng, comS := commitScom p rng
    chalY := challengeScalar (commitTr p rng ++ [1])
    chalZ := challengeScalar (commitTr p rng ++ [2]) }

/-- Modelled from the spec: `ProverCS::commit` — detects an undersized
generator set (configuration error), evaluates the constraint graph and
fails with a constraint-violation error on an unsatisfied multiplication
relation or a nonzero linear constraint, and otherwise transitions to the
committed session. -/
def ProverCS.commit (p : ProverCS F) (rng : ℕ → F) :
    Except R1CSError (CommittedProverCS F) :=
  if p.bpCapacity < p.aL.length then .error .malformedInput
  else if p.mulSat ∧ p.linSat then .ok (commitResult p rng)
  else .error .constraintViolation

/-- Degree-1 coefficient of the prover's vector polynomial `l(X)`, which
together with `r(X)` encodes the flattened constraints through the
challenges. -/
def pl1 (n : ℕ) (cp : CommittedProverCS F) : Fin n → F :=
  fun i => vecD cp.aL n i
    + (cp.chalY⁻¹) ^ (i : ℕ) * flatWR cp.constraints cp.chalZ n i

/-- Degree-2 coefficient of the prover's vector polynomial `l(X)`. -/
def pl2 (n : ℕ) (cp : CommittedProverCS F) : Fin n → F := vecD cp.aO n

/-- Degree-3 coefficient of the prover's vector polynomial `l(X)`. -/
def pl3 (n : ℕ) (cp : CommittedProverCS F) : Fin n → F := vecD cp.sL n

/-- Degree-0 coefficient of the prover's vector polynomial `r(X)`. -/
def pr0 (n : ℕ) (cp : CommittedProverCS F) : Fin n → F :=
  fun i => flatWO cp.constraints cp.chalZ n i - cp.chalY ^ (i : ℕ)

/-- Degree-1 coefficient of the prover's vector polynomial `r(X)`. -/
def pr1 (n : ℕ) (cp : CommittedProverCS F) : Fin n → F :=
  fun i => cp.chalY ^ (i : ℕ) * vecD cp.aR n i
    + flatWL cp.constraints cp.chalZ n i

/-- Degree-3 coefficient of the prover's vector polynomial `r(X)`. -/
def pr3 (n : ℕ) (cp : CommittedProverCS F) : Fin n → F :=
  fun i => cp.chalY ^ (i : ℕ) * vecD cp.sR n i

/-- Coefficient `t_1` of `t(X) = ⟨l(X), r(X)⟩`. -/
def pt1 (n : ℕ) (cp : CommittedProverCS F) : F := dotF (pl1 n cp) (pr0 n cp)

/-- Coefficient `t_2` of `t(X)` (omitted from the proof, reconstructed
homomorphically by the verifier). -/
def pt2 (n : ℕ) (cp : CommittedProverCS F) : F :=
  dotF (pl1 n cp) (pr1 n cp) + dotF (pl2 n cp) (pr0 n cp)

/-- Coefficient `t_3` of `t(X)`. -/
def pt3 (n : ℕ) (cp : CommittedProverCS F) : F :=
  dotF (pl2 n cp) (pr1 n cp) + dotF (pl3 n cp) (pr0 n cp)

/-- Coefficient `t_4` of `t(X)`. -/
def pt4 (n : ℕ) (cp : CommittedProverCS F) : F :=
  dotF (pl1 n cp) (pr3 n cp) + dotF (pl3 n cp) (pr1 n cp)

/-- Coefficient `t_5` of `t(X)`. -/
def pt5 (n : ℕ) (cp : CommittedProverCS F) : F := dotF (pl2 n cp) (pr3 n cp)

/-- Coefficient `t_6` of `t(X)`. -/
def pt6 (n : ℕ) (cp : CommittedProverCS F) : F := dotF (pl3 n cp) (pr3 n cp)

/-- The coefficient commitment `T_1` with its sampled blinding. -/
def ptT1 (cp : CommittedProverCS F) (rng : ℕ → F) : PedersenCom F :=
  ⟨pt1 cp.aL.length cp, rng (3 + 2 * cp.aL.length)⟩

/-- The coefficient commitment `T_3` with its sampled blinding. -/
def ptT3 (cp : CommittedProverCS F) (rng : ℕ → F) : PedersenCom F :=
  ⟨pt3 cp.aL.length cp, rng (4 + 2 * cp.aL.length)⟩

/-- The coefficient commitment `T_4` with its sampled blinding. -/
def ptT4 (cp : CommittedProverCS F) (rng : ℕ → F) : PedersenCom F :=
  ⟨pt4 cp.aL.length cp, rng (5 + 2 * cp.aL.length)⟩

/-- The coefficient commitment `T_5` with its sampled blinding. -/
def ptT5 (cp : CommittedProverCS F) (rng : ℕ → F) : PedersenCom F :=
  ⟨pt5 cp.aL.length cp, rng (6 + 2 * cp.aL.length)⟩

/-- The coefficient commitment `T_6` with its sampled blinding. -/
def ptT6 (cp : CommittedProverCS F) (rng : ℕ → F) : PedersenCom F :=
  ⟨pt6 cp.aL.length cp, rng (7 + 2 * cp.aL.length)⟩

/-- The transcript after the prover's prove phase absorbed the coefficient
commitments `T_1, T_3, T_4, T_5, T_6` (`T_2` is omitted). -/
def proveTr2 (cp : CommittedProverCS F) (rng : ℕ → F) : List F :=
  cp.transcript ++ pedComFlat (ptT1 cp rng) ++ pedComFlat (ptT3 cp rng)
    ++ pedComFlat (ptT4 cp rng) ++ pedComFlat (ptT5 cp rng)
    ++ pedComFlat (ptT6 cp rng)

/-- The evaluation challenge `x`, drawn after the coefficient commitments
were absorbed. -/
def proveX (cp : CommittedProverCS F) (rng : ℕ → F) : F :=
  challengeScalar (proveTr2 cp rng ++ [3])

/-- Modelled from the spec: the proof produced by the prover's prove phase —
the degree-3 vector polynomials `l(X)`, `r(X)` encode the flattened
constraints through the challenges; `t(X) = ⟨l(X), r(X)⟩` is committed at
its coefficients 1, 3, 4, 5, 6 (`t_0` is publicly zero and `t_2` is
homomorphically reconstructible from the input commitments); the challenge
`x` is drawn after absorbing those commitments; the evaluation, the two
aggregated blinding scalars, and the inner-product sub-proof on
`l(x)`, `r(x)` complete the proof. -/
def buildProof (cp : CommittedProverCS F) (rng : ℕ → F) : R1CSProof F :=
  let n := cp.aL.length
  let m := cp.v.length
  let x := proveX cp rng
  { A_I := cp.comAI, A_O := cp.comAO, S := cp.comS
    T_1 := ptT1 cp rng, T_3 := ptT3 cp rng, T_4 := ptT4 cp rng
    T_5 := ptT5 cp rng, T_6 := ptT6 cp rng
    t_x := pt1 n cp * x + pt2 n cp * x ^ 2 + pt3 n cp * x ^ 3
      + pt4 n cp * x ^ 4 + pt5 n cp * x ^ 5 + pt6 n cp * x ^ 6
    t_x_blinding := x ^ 2 * dotF (flatWV cp.constraints cp.chalZ m)
        (vecD cp.v_blinding m)
      + (ptT1 cp rng).blinding * x + (ptT3 cp rng).blinding * x ^ 3
      + (ptT4 cp rng).blinding * x ^ 4 + (ptT5 cp rng).blinding * x ^ 5
      + (ptT6 cp rng).blinding * x ^ 6
    e_blinding := cp.iBlind * x + cp.oBlind * x ^ 2 + cp.sBlind * x ^ 3
    ipp_proof :=
      ⟨List.ofFn fun i =>
          pl1 n cp i * x + pl2 n cp i * x ^ 2 + pl3 n cp i * x ^ 3,
       List.ofFn fun i =>
          pr0 n cp i + pr1 n cp i * x + pr3 n cp i * x ^ 3⟩ }

/-- Modelled from the spec: `CommittedProverCS::prove` consumes the
committed session and produces the proof. -/
def CommittedProverCS.prove (cp : CommittedProverCS F) (rng : ℕ → F) :
    Except R1CSError (R1CSProof F) :=
  .ok (buildProof cp rng)

/-- Modelled from the spec: `VerifierCS::new` — constructs the verifier
session bound to the public parameters, the transcript and the received
commitments (absorbed in order), and returns it together with the
committed-input variable handles, every assignment forced to `Unknown`. -/
def VerifierCS.new (bp_gens : BulletproofGens) (_pc_gens : PedersenGens)
    (transcript : List F) (commitments : List (PedersenCom F)) :
    VerifierCS F × List (Variable (OpaqueScalar F)) :=
  (⟨bp_gens.gensCapacity, transcript ++ pedListFlat commitments,
    commitments, 0, []⟩,
   (List.range commitments.length).map fun j => ⟨.Committed j, .Unknown⟩)

/-- Modelled from the spec: verifier-side `allocate_multiplier` — purely
symbolic; the returned handles carry `Unknown` assignments. -/
def VerifierCS.allocateMultiplier (vc : VerifierCS F) :
    VerifierCS F × Variable (OpaqueScalar F) × Variable (OpaqueScalar F)
      × Variable (OpaqueScalar F) :=
  let i := vc.numMults
  ({ vc with numMults := vc.numMults + 1 },
   ⟨.MultiplierLeft i, .Unknown⟩, ⟨.MultiplierRight i, .Unknown⟩,
   ⟨.MultiplierOutput i, .Unknown⟩)

/-- Modelled from the spec: verifier-side `constrain`. -/
def VerifierCS.constrain (vc : VerifierCS F) (lc : LinearCombination F) :
    VerifierCS F :=
  { vc with constraints := vc.constraints ++ [lc] }

/-- Modelled from the spec: `VerifierCS::commit` — detects an undersized
generator set and transitions to the committed verifier session. -/
def VerifierCS.commit (vc : VerifierCS F) :
    Except R1CSError (CommittedVerifierCS F) :=
  if vc.bpCapacity < vc.numMults then .error .malformedInput
  else .ok ⟨vc.transcript, vc.V, vc.numMults, vc.constraints⟩

/-- Structural well-formedness of a proof against a session with `n`
multiplication gates: all vector fields have length `n` (a mismatch is a
malformed-input error, distinguished from proof invalidity). -/
def proofLengthsOk (proof : R1CSProof F) (n : ℕ) : Prop :=
  proof.A_I.gVec.length = n ∧ proof.A_I.hVec.length = n ∧
  proof.A_O.gVec.length = n ∧ proof.A_O.hVec.length = n ∧
  proof.S.gVec.length = n ∧ proof.S.hVec.length = n ∧
  proof.ipp_proof.lVec.length = n ∧ proof.ipp_proof.rVec.length = n

instance (proof : R1CSProof F) (n : ℕ) : Decidable (proofLengthsOk proof n) := by
  unfold proofLengthsOk; infer_instance

/-- The verifier's re-derived transcript after absorbing the proof's
`A_I`, `A_O`, `S` in the prover's order. -/
def verifyTr1 (cv : CommittedVerifierCS F) (proof : R1CSProof F) : List F :=
  cv.transcript ++ vecComFlat proof.A_I ++ vecComFlat proof.A_O
    ++ vecComFlat proof.S

/-- The verifier's re-derived challenge `y`. -/
def verifyY (cv : CommittedVerifierCS F) (proof : R1CSProof F) : F :=
  challengeScalar (verifyTr1 cv proof ++ [1])

/-- The verifier's re-derived challenge `z`. -/
def verifyZ (cv : CommittedVerifierCS F) (proof : R1CSProof F) : F :=
  challengeScalar (verifyTr1 cv proof ++ [2])

/-- The verifier's re-derived transcript after also absorbing the proof's
coefficient commitments. -/
def verifyTr2 (cv : CommittedVerifierCS F) (proof : R1CSProof F) : List F :=
  verifyTr1 cv proof ++ pedComFlat proof.T_1 ++ pedComFlat proof.T_3
    ++ pedComFlat proof.T_4 ++ pedComFlat proof.T_5 ++ pedComFlat proof.T_6

/-- The verifier's re-derived challenge `x`. -/
def verifyX (cv : CommittedVerifierCS F) (proof : R1CSProof F) : F :=
  challengeScalar (verifyTr2 cv proof ++ [3])

/-- The verifier's opening check for `t(x)`: the synthetic commitment
reconstructed from the input commitments, the proof's coefficient
commitments and the challenges must open to `(t_x, t_x_blinding)`. -/
def tCheck (cv : CommittedVerifierCS F) (proof : R1CSProof F) (y z x : F) : Prop :=
  let n := cv.numMults
  let m := cv.V.length
  let wV := flatWV cv.constraints z m
  let wc := flatWc cv.constraints z
  let vVals := fun j : Fin m => (cv.V.getD j ⟨0, 0⟩).value
  let vBlinds := fun j : Fin m => (cv.V.getD j ⟨0, 0⟩).blinding
  proof.t_x =
      x ^ 2 * (dotF wV vVals + deltaYZ cv.constraints y z n + wc)
      + proof.T_1.value * x + proof.T_3.value * x ^ 3 + proof.T_4.value * x ^ 4
      + proof.T_5.value * x ^ 5 + proof.T_6.value * x ^ 6
    ∧ proof.t_x_blinding =
      x ^ 2 * dotF wV vBlinds
      + proof.T_1.blinding * x + proof.T_3.blinding * x ^ 3
      + proof.T_4.blinding * x ^ 4 + proof.T_5.blinding * x ^ 5
      + proof.T_6.blinding * x ^ 6

/-- The verifier's check of the combined commitment to `l(x)`, `r(x)`: the
expected commitment is reconstructed from `A_I`, `A_O`, `S`, the flattened
constraint weights and the challenges; its blinding exponent must equal
`e_blinding`, and the inner-product sub-proof must certify (per its
contract) that it opens to vectors with inner product `t_x`. -/
def ippCheck (cv : CommittedVerifierCS F) (proof : R1CSProof F) (y z x : F) : Prop :=
  let n := cv.numMults
  let wL := flatWL cv.constraints z n
  let wR := flatWR cv.constraints z n
  let wO := flatWO cv.constraints z n
  let gExp := fun i : Fin n =>
    x * vecD proof.A_I.gVec n i + x ^ 2 * vecD proof.A_O.gVec n i
      + x ^ 3 * vecD proof.S.gVec n i + x * ((y⁻¹) ^ (i : ℕ) * wR i)
  let hExp := fun i : Fin n =>
    y ^ (i : ℕ) * (x * vecD proof.A_I.hVec n i + x ^ 2 * vecD proof.A_O.hVec n i
      + x ^ 3 * vecD proof.S.hVec n i)
      + x * wL i + wO i - y ^ (i : ℕ)
  proof.e_blinding =
      x * proof.A_I.blind + x ^ 2 * proof.A_O.blind + x ^ 3 * proof.S.blind
    ∧ proof.ipp_proof.lVec = List.ofFn gExp
    ∧ proof.ipp_proof.rVec = List.ofFn hExp
    ∧ dotF (vecD proof.ipp_proof.lVec n) (vecD proof.ipp_proof.rVec n) = proof.t_x

instance (cv : CommittedVerifierCS F) (proof : R1CSProof F) (y z x : F) :
    Decidable (tCheck cv proof y z x) := by
  unfold tCheck; infer_instance

instance (cv : CommittedVerifierCS F) (proof : R1CSProof F) (y z x : F) :
    Decidable (ippCheck cv proof y z x) := by
  unfold ippCheck; infer_instance

/-- Modelled from the spec: `CommittedVerifierCS::verify` — checks the
proof's vector lengths, re-derives the challenges `y`, `z`, `x` by
absorbing the proof's commitments in the prover's order, and runs the two
opening checks; any failing check rejects with a verification-failed
error. -/
def CommittedVerifierCS.verify (cv : CommittedVerifierCS F) (proof : R1CSProof F) :
    Except R1CSError Unit :=
  if proofLengthsOk proof cv.numMults then
    if tCheck cv proof (verifyY cv proof) (verifyZ cv proof) (verifyX cv proof)
        ∧ ippCheck cv proof (verifyY cv proof) (verifyZ cv proof) (verifyX cv proof)
    then .ok ()
    else .error .verificationFailed
  else .error .malformedInput

/-- One step of the top-level orchestration of `mod.rs`: session
construction, the single builder invocation, the commit phase, and the
consuming prove-or-verify phase. -/
inductive OrchestrationStep where
  | construct
  | builderCall
  | commitStep
  | consumeStep
deriving DecidableEq, Repr

/-- The orchestration of `R1CSProof::prove` (`mod.rs` lines 79-109),
instrumented with the list of steps it performs in order: (1) prepare a
proving CS via `ProverCS::new`, (2) delegate to the caller's `builder`,
(3) commit internal vars, (4) create the proof; the commitments
computed at construction are returned alongside the proof.  The randomness
source `rng` models the ambient cryptographically secure randomness of the
proving call. -/
def proveWithTrace (bp_gens : BulletproofGens) (pc_gens : PedersenGens)
    (transcript : List F) (v v_blinding : List F)
    (builder : ProverCS F → List (Variable F) → Except R1CSError (ProverCS F))
    (rng : ℕ → F) :
    Except R1CSError (R1CSProof F × List (PedersenCom F)) × List OrchestrationStep :=
  let pvc := ProverCS.new bp_gens pc_gens transcript v v_blinding
  match builder pvc.1 pvc.2.1 with
  | .error e => (.error e, [.construct, .builderCall])
  | .ok prover2 =>
    match prover2.commit rng with
    | .error e => (.error e, [.construct, .builderCall, .commitStep])
    | .ok committed =>
      match committed.prove rng with
      | .error e => (.error e, [.construct, .builderCall, .commitStep, .consumeStep])
      | .ok proof =>
        (.ok (proof, pvc.2.2), [.construct, .builderCall, .commitStep, .consumeStep])

/-- `R1CSProof::prove` (`mod.rs` lines 79-109): creates and returns a proof
along with the Pedersen commitments for all provided secrets; the constraint
system is specified by the `builder` closure. -/
def R1CSProof.prove (bp_gens : BulletproofGens) (pc_gens : PedersenGens)
    (transcript : List F) (v v_blinding : List F)
    (builder : ProverCS F → List (Variable F) → Except R1CSError (ProverCS F))
    (rng : ℕ → F) :
    Except R1CSError (R1CSProof F × List (PedersenCom F)) :=
  (proveWithTrace bp_gens pc_gens transcript v v_blinding builder rng).1

/-- The orchestration of `R1CSProof::verify` (`mod.rs` lines 113-140),
instrumented with the list of steps it performs in order: (1) prepare a
verifying CS via `VerifierCS::new`, (2) delegate to the caller's `builder`,
(3) commit internal vars, (4) verify the proof.  The verifier receives
the same ambient randomness source as every top-level operation but never
consults it. -/
def verifyWithTrace (proof : R1CSProof F) (bp_gens : BulletproofGens)
    (pc_gens : PedersenGens) (transcript : List F)
    (commitments : List (PedersenCom F))
    (builder : VerifierCS F → List (Variable (OpaqueScalar F)) →
      Except R1CSError (VerifierCS F))
    (_rng : ℕ → F) :
    Except R1CSError Unit × List OrchestrationStep :=
  let vv := VerifierCS.new bp_gens pc_gens transcript commitments
  match builder vv.1 vv.2 with
  | .error e => (.error e, [.construct, .builderCall])
  | .ok verifier2 =>
    match verifier2.commit with
    | .error e => (.error e, [.construct, .builderCall, .commitStep])
    | .ok committed =>
      match committed.verify proof with
      | .error e => (.error e, [.construct, .builderCall, .commitStep, .consumeStep])
      | .ok _ =>
        (.ok (), [.construct, .builderCall, .commitStep, .consumeStep])

/-- `R1CSProof::verify` (`mod.rs` lines 113-140): verifies the proof for the
given commitments; the constraint system is specified by the `builder`
closure. -/
def R1CSProof.verify (proof : R1CSProof F) (bp_gens : BulletproofGens)
    (pc_gens : PedersenGens) (transcript : List F)
    (commitments : List (PedersenCom F))
    (builder : VerifierCS F → List (Variable (OpaqueScalar F)) →
      Except R1CSError (VerifierCS F))
    (rng : ℕ → F) :
    Except R1CSError Unit :=
  (verifyWithTrace proof bp_gens pc_gens transcript commitments builder rng).1

/-! Concrete scenario from the specification: a single multiplication gate
enforcing `a * b = c` with secrets `a = 3`, `b = 5`, the left and right
wires tied to the two committed inputs, and the output wire constrained to
the public constant `15` (and, in the failing variant, `16`).  Instantiated
over the scalar field `ZMod 101`. -/

/-- Concrete scalar field used to instantiate the model. -/
abbrev K101 := ZMod 101

instance : Fact (Nat.Prime 101) := ⟨by norm_num⟩

/-- Constraint tying the gate's left wire to the first committed input. -/
def scLc1 : LinearCombination K101 := ⟨[(.MultiplierLeft 0, 1), (.Committed 0, -1)], 0⟩

/-- Constraint tying the gate's right wire to the second committed input. -/
def scLc2 : LinearCombination K101 := ⟨[(.MultiplierRight 0, 1), (.Committed 1, -1)], 0⟩

/-- Constraint tying the gate's output wire to the public constant 15. -/
def scLc3 : LinearCombination K101 := ⟨[(.MultiplierOutput 0, 1)], -15⟩

/-- Failing variant: output wire constrained to the public constant 16. -/
def scLc3bad : LinearCombination K101 := ⟨[(.MultiplierOutput 0, 1)], -16⟩

/-- Prover-side constraint-building routine of the scenario. -/
def scBuilderP : ProverCS K101 → List (Variable K101) →
    Except R1CSError (ProverCS K101) :=
  fun p _ =>
    .ok ((((p.allocateMultiplier 3 5).1.constrain scLc1).constrain scLc2).constrain scLc3)

/-- Prover-side routine of the failing variant (public constant 16). -/
def scBuilderPbad : ProverCS K101 → List (Variable K101) →
    Except R1CSError (ProverCS K101) :=
  fun p _ =>
    .ok ((((p.allocateMultiplier 3 5).1.constrain scLc1).constrain scLc2).constrain scLc3bad)

/-- A second satisfied prover-side routine, differing from `scBuilderP` (it
registers an extra trivial constraint). -/
def scBuilderP2 : ProverCS K101 → List (Variable K101) →
    Except R1CSError (ProverCS K101) :=
  fun p _ =>
    .ok (((((p.allocateMultiplier 3 5).1.constrain scLc1).constrain scLc2).constrain scLc3).constrain ⟨[], 0⟩)

/-- A constraint-building routine that reports an application-defined
failure. -/
def scBuilderErr : ProverCS K101 → List (Variable K101) →
    Except R1CSError (ProverCS K101) :=
  fun _ _ => .error (.gadgetError 42)

/-- Verifier-side constraint-building routine of the scenario (the same
statement-description code run symbolically). -/
def scBuilderV : VerifierCS K101 → List (Variable (OpaqueScalar K101)) →
    Except R1CSError (VerifierCS K101) :=
  fun vc _ =>
    .ok (((vc.allocateMultiplier.1.constrain scLc1).constrain scLc2).constrain scLc3)

/-- Verifier-side constraint-building routine that reports failure. -/
def scBuilderVErr : VerifierCS K101 → List (Variable (OpaqueScalar K101)) →
    Except R1CSError (VerifierCS K101) :=
  fun _ _ => .error (.gadgetError 7)

/-- Generator set of the scenario (capacity for one gate). -/
def scBp : BulletproofGens := ⟨1⟩

/-- Scalar-commitment generator set of the scenario. -/
def scPc : PedersenGens := ⟨⟩

/-- Initial transcript of the scenario. -/
def scT0 : List K101 := [9]

/-- Randomness source of the scenario. -/
def scRng : ℕ → K101 := fun k => (k + 2 : ℕ)

/-- Secret inputs of the scenario. -/
def scV : List K101 := [3, 5]

/-- Blinding factors of the scenario's input commitments. -/
def scVB : List K101 := [7, 11]

/-- The prover session state after the scenario's builder has run. -/
def scP1 : ProverCS K101 :=
  ((((ProverCS.new scBp scPc scT0 scV scVB).1.allocateMultiplier 3 5).1.constrain
      scLc1).constrain scLc2).constrain scLc3

/-- The proof produced in the scenario. -/
def scProof : R1CSProof K101 := buildProof (commitResult scP1 scRng) scRng

/-- The commitments returned by the scenario's proving call. -/
def scComs : List (PedersenCom K101) := (ProverCS.new scBp scPc scT0 scV scVB).2.2

/-- The prover session state after the failing variant's builder has run. -/
def scP1bad : ProverCS K101 :=
  ((((ProverCS.new scBp scPc scT0 scV scVB).1.allocateMultiplier 3 5).1.constrain
      scLc1).constrain scLc2).constrain scLc3bad

/-- The prover session state after the second (extended) builder has run. -/
def scP2 : ProverCS K101 :=
  (((((ProverCS.new scBp scPc scT0 scV scVB).1.allocateMultiplier 3 5).1.constrain
      scLc1).constrain scLc2).constrain scLc3).constrain ⟨[], 0⟩

/-- The proof produced by the second builder's proving call. -/
def scProof2 : R1CSProof K101 := buildProof (commitResult scP2 scRng) scRng

/-! Helper lemmas about the orchestration control flow. -/

/-- The commitment list a successful proving call returns is the one
computed by `ProverCS::new` at session construction. -/
theorem prove_commitments_fixed
    (bp_gens : BulletproofGens) (pc_gens : PedersenGens) (transcript : List F)
    (v v_blinding : List F)
    (builder : ProverCS F → List (Variable F) → Except R1CSError (ProverCS F))
    (rng : ℕ → F) (pf : R1CSProof F) (cm : List (PedersenCom F))
    (h : R1CSProof.prove bp_gens pc_gens transcript v v_blinding builder rng
        = .ok (pf, cm)) :
    cm = (ProverCS.new (F := F) bp_gens pc_gens transcript v v_blinding).2.2 := by
  simp only [R1CSProof.prove, proveWithTrace] at h
  cases hb : builder (ProverCS.new bp_gens pc_gens transcript v v_blinding).1
      (ProverCS.new bp_gens pc_gens transcript v v_blinding).2.1 with
  | error e => simp [hb] at h
  | ok p1 =>
    cases hc : p1.commit rng with
    | error e => simp [hb, hc] at h
    | ok cp =>
      simp [hb, hc, CommittedProverCS.prove] at h
      exact h.2.symm

/-- Claim C3: an `R1CSProof` consists exactly of the three vector
commitments `A_I`, `A_O`, `S`, the coefficient commitments `T_1, T_3, T_4,
T_5, T_6` of the degree-6 polynomial `t(X)` (the constant term `t_0` and
the interior coefficient `t_2` have no field), the evaluation `t_x`, the
blinding scalars `t_x_blinding` and `e_blinding`, and one inner-product
sub-proof; the projection onto exactly those twelve components is a
bijection, so no other fields exist and the shape is fixed. -/
theorem r1csProof_fixed_shape (G : Type) :
    Function.Bijective (fun p : R1CSProof G =>
      (p.A_I, p.A_O, p.S, p.T_1, p.T_3, p.T_4, p.T_5, p.T_6,
       p.t_x, p.t_x_blinding, p.e_blinding, p.ipp_proof)) := by
  constructor
  · intro p q h
    cases p; cases q; simpa using h
  · intro t
    obtain ⟨a, b, c, d1, d3, d4, d5, d6, tx, txb, eb, ipp⟩ := t
    exact ⟨⟨a, b, c, d1, d3, d4, d5, d6, tx, txb, eb, ipp⟩, rfl⟩

/-- Claim C9: `R1CSProof::verify` is deterministic — two runs on the same
proof, generator sets, initial transcript, commitment list and
constraint-building closure yield the same result whatever the ambient
randomness source holds; the verifier draws no randomness. -/
theorem verify_deterministic (proof : R1CSProof F) (bp_gens : BulletproofGens)
    (pc_gens : PedersenGens) (transcript : List F)
    (commitments : List (PedersenCom F))
    (builder : VerifierCS F → List (Variable (OpaqueScalar F)) →
      Except R1CSError (VerifierCS F))
    (rng1 rng2 : ℕ → F) :
    R1CSProof.verify proof bp_gens pc_gens transcript commitments builder rng1
      = R1CSProof.verify proof bp_gens pc_gens transcript commitments builder rng2 :=
  rfl

/-- Claim C2: on the success path, each of `R1CSProof::prove` and
`R1CSProof::verify` performs exactly the steps session construction, one
invocation of the caller's constraint-building closure, commit, and
prove (respectively verify), in this order, none repeated and none
skipped. -/
theorem orchestration_steps_in_order
    (bp_gens : BulletproofGens) (pc_gens : PedersenGens) (transcript : List F)
    (v v_blinding : List F)
    (builderP : ProverCS F → List (Variable F) → Except R1CSError (ProverCS F))
    (rng : ℕ → F) (proof : R1CSProof F) (commitments : List (PedersenCom F))
    (builderV : VerifierCS F → List (Variable (OpaqueScalar F)) →
      Except R1CSError (VerifierCS F)) (rng2 : ℕ → F) :
    (∀ r tr,
      proveWithTrace bp_gens pc_gens transcript v v_blinding builderP rng = (.ok r, tr) →
        tr = [.construct, .builderCall, .commitStep, .consumeStep]
          ∧ tr.count .builderCall = 1)
    ∧ (∀ u tr,
      verifyWithTrace proof bp_gens pc_gens transcript commitments builderV rng2
          = (.ok u, tr) →
        tr = [.construct, .builderCall, .commitStep, .consumeStep]
          ∧ tr.count .builderCall = 1) := by
  constructor
  · intro r tr h
    simp only [proveWithTrace] at h
    cases hb : builderP (ProverCS.new bp_gens pc_gens transcript v v_blinding).1
        (ProverCS.new bp_gens pc_gens transcript v v_blinding).2.1 with
    | error e => simp [hb] at h
    | ok p1 =>
      cases hc : p1.commit rng with
      | error e => simp [hb, hc] at h
      | ok cp =>
        simp [hb, hc, CommittedProverCS.prove] at h
        exact ⟨h.2.symm, by rw [h.2.symm]; decide⟩
  · intro u tr h
    simp only [verifyWithTrace] at h
    cases hb : builderV (VerifierCS.new bp_gens pc_gens transcript commitments).1
        (VerifierCS.new bp_gens pc_gens transcript commitments).2 with
    | error e => simp [hb] at h
    | ok v1 =>
      cases hc : v1.commit with
      | error e => simp [hb, hc] at h
      | ok cv =>
        cases hv : cv.verify proof with
        | error e => simp [hb, hc, hv] at h
        | ok uu =>
          simp [hb, hc, hv] at h
          exact ⟨h.symm, by rw [← h]; decide⟩

/-- Witness for claim C2: in the concrete scenario both pipelines succeed
and their recorded step traces are exactly construction, builder call,
commit, consume. -/
theorem orchestration_steps_in_order_witness :
    proveWithTrace scBp scPc scT0 scV scVB scBuilderP scRng
        = (.ok (scProof, scComs),
           [.construct, .builderCall, .commitStep, .consumeStep])
      ∧ ((proveWithTrace scBp scPc scT0 scV scVB scBuilderP scRng).2
          = [.construct, .builderCall, .commitStep, .consumeStep]
        ∧ (proveWithTrace scBp scPc scT0 scV scVB scBuilderP scRng).2.count
            .builderCall = 1)
      ∧ ((verifyWithTrace scProof scBp scPc scT0 scComs scBuilderV scRng).2
          = [.construct, .builderCall, .commitStep, .consumeStep]
        ∧ (verifyWithTrace scProof scBp scPc scT0 scComs scBuilderV scRng).2.count
            .builderCall = 1) :=
  ⟨rfl,
   (orchestration_steps_in_order scBp scPc scT0 scV scVB scBuilderP scRng
       scProof scComs scBuilderV scRng).1 (scProof, scComs)
     (proveWithTrace scBp scPc scT0 scV scVB scBuilderP scRng).2 rfl,
   (orchestration_steps_in_order scBp scPc scT0 scV scVB scBuilderP scRng
       scProof scComs scBuilderV scRng).2 ()
     (verifyWithTrace scProof scBp scPc scT0 scComs scBuilderV scRng).2 rfl⟩

/-! Algebraic toolkit for the completeness argument. -/

/-- The modelled challenge derivation never returns zero. -/
theorem challengeScalar_ne_zero (t : List F) : challengeScalar t ≠ 0 := by
  unfold challengeScalar
  by_cases h : t.foldl (fun a s => a * 31 + s + 7) 5 = 0
  · simp [h]
  · simp [h]

/-- Inner products distribute over pointwise sums on the left. -/
theorem dotF_add_left {n : ℕ} (f g a : Fin n → F) :
    dotF (fun i => f i + g i) a = dotF f a + dotF g a := by
  simp [dotF, add_mul, Finset.sum_add_distrib]

/-- Scalars factor out of inner products on the left. -/
theorem dotF_smul_left {n : ℕ} (c : F) (f a : Fin n → F) :
    dotF (fun i => c * f i) a = c * dotF f a := by
  simp [dotF, Finset.mul_sum, mul_assoc]

/-- Negation factors out of inner products on the left. -/
theorem dotF_neg_left {n : ℕ} (f a : Fin n → F) :
    dotF (fun i => -f i) a = -dotF f a := by
  simp [dotF]

/-- The inner product with the zero vector vanishes. -/
theorem dotF_zero_left {n : ℕ} (a : Fin n → F) :
    dotF (fun _ => (0 : F)) a = 0 := by
  simp [dotF]

/-- Inner products commute with finite sums on the left. -/
theorem dotF_sum_left {n : ℕ} (s : Finset ℕ) (f : ℕ → Fin n → F)
    (a : Fin n → F) :
    dotF (fun i => ∑ q ∈ s, f q i) a = ∑ q ∈ s, dotF (f q) a := by
  simp only [dotF, Finset.sum_mul]
  exact Finset.sum_comm

/-- Inner product against an indicator supported on one allocated slot. -/
theorem dotF_ite_single {n : ℕ} (w : F) (a : Fin n → F) (i0 : ℕ) (h : i0 < n)
    (P : ℕ → VariableIndex) (hinj : Function.Injective P) :
    dotF (fun i : Fin n => if P i0 = P (i : ℕ) then w else 0) a
      = w * a ⟨i0, h⟩ := by
  unfold dotF
  have key : ∀ i : Fin n, (if P i0 = P (i : ℕ) then w else 0) * a i
      = if (⟨i0, h⟩ : Fin n) = i then w * a i else 0 := by
    intro i
    by_cases hc : P i0 = P (i : ℕ)
    · rw [if_pos hc, if_pos (Fin.ext (hinj hc))]
    · rw [if_neg hc, if_neg, zero_mul]
      intro hfi
      exact hc (congrArg P (congrArg Fin.val hfi))
  rw [Finset.sum_congr rfl fun i _ => key i]
  simp

/-- Entries of the vector view of `List.ofFn`. -/
theorem vecD_ofFn {n : ℕ} (f : Fin n → F) (i : Fin n) :
    vecD (List.ofFn f) n i = f i := by
  simp [vecD, List.getD, List.getElem?_ofFn, i.isLt]

/-- A well-formed term list evaluates, under the concrete lookup, to the
inner products of its per-slot weights with the wire vectors. -/
theorem terms_flatten (n m : ℕ) (v aL aR aO : List F)
    (terms : List (VariableIndex × F))
    (hwf : ∀ t ∈ terms, t.1.inBounds n m) :
    (terms.map fun t => t.2 * assignmentOf v aL aR aO t.1).sum
      = dotF (fun i => weightOnTerms terms (.MultiplierLeft (i : ℕ))) (vecD aL n)
      + dotF (fun i => weightOnTerms terms (.MultiplierRight (i : ℕ))) (vecD aR n)
      + dotF (fun i => weightOnTerms terms (.MultiplierOutput (i : ℕ))) (vecD aO n)
      + dotF (fun j => weightOnTerms terms (.Committed (j : ℕ))) (vecD v m)
      + weightOnTerms terms .One := by
  induction terms with
  | nil => simp [weightOnTerms, dotF_zero_left]
  | cons t ts ih =>
    have hts : ∀ u ∈ ts, u.1.inBounds n m :=
      fun u hu => hwf u (List.mem_cons_of_mem _ hu)
    have hhd : t.1.inBounds n m := hwf t (List.mem_cons_self t ts)
    have hsplit : ∀ idx, weightOnTerms (t :: ts) idx
        = (if t.1 = idx then t.2 else 0) + weightOnTerms ts idx := by
      intro idx; simp [weightOnTerms]
    simp only [List.map_cons, List.sum_cons, hsplit, dotF_add_left, ih hts]
    obtain ⟨idx, w⟩ := t
    cases idx with
    | Committed j =>
      have hj : j < m := hhd
      rw [dotF_ite_single w (vecD v m) j hj VariableIndex.Committed
        (fun a b hab => by injection hab)]
      simp only [assignmentOf, vecD]
      simp [dotF_zero_left]
      ring
    | MultiplierLeft i0 =>
      have hi : i0 < n := hhd
      rw [dotF_ite_single w (vecD aL n) i0 hi VariableIndex.MultiplierLeft
        (fun a b hab => by injection hab)]
      simp only [assignmentOf, vecD]
      simp [dotF_zero_left]
      ring
    | MultiplierRight i0 =>
      have hi : i0 < n := hhd
      rw [dotF_ite_single w (vecD aR n) i0 hi VariableIndex.MultiplierRight
        (fun a b hab => by injection hab)]
      simp only [assignmentOf, vecD]
      simp [dotF_zero_left]
      ring
    | MultiplierOutput i0 =>
      have hi : i0 < n := hhd
      rw [dotF_ite_single w (vecD aO n) i0 hi VariableIndex.MultiplierOutput
        (fun a b hab => by injection hab)]
      simp only [assignmentOf, vecD]
      simp [dotF_zero_left]
      ring
    | One =>
      simp only [assignmentOf, vecD]
      simp [dotF_zero_left]
      ring

/-- A well-formed linear combination evaluates, under the concrete lookup,
to the inner products of its flattened rows with the wire vectors. -/
theorem eval_flatten (lc : LinearCombination F) (n m : ℕ)
    (v aL aR aO : List F) (hwf : lc.wf n m) :
    lc.eval (assignmentOf v aL aR aO)
      = dotF (fun i => lc.weightOn (.MultiplierLeft (i : ℕ))) (vecD aL n)
      + dotF (fun i => lc.weightOn (.MultiplierRight (i : ℕ))) (vecD aR n)
      + dotF (fun i => lc.weightOn (.MultiplierOutput (i : ℕ))) (vecD aO n)
      + dotF (fun j => lc.weightOn (.Committed (j : ℕ))) (vecD v m)
      + lc.weightOn .One + lc.constant := by
  unfold LinearCombination.eval LinearCombination.weightOn
  rw [terms_flatten n m v aL aR aO lc.terms hwf]

/-- Satisfied, well-formed constraints flatten to one aggregated linear
identity between the wire vectors and the committed inputs. -/
theorem flatten_satisfied (cs : List (LinearCombination F)) (z : F)
    (v aL aR aO : List F) (n m : ℕ)
    (hwf : ∀ lc ∈ cs, lc.wf n m)
    (hsat : ∀ lc ∈ cs, lc.eval (assignmentOf v aL aR aO) = 0) :
    dotF (flatWL cs z n) (vecD aL n) + dotF (flatWR cs z n) (vecD aR n)
      + dotF (flatWO cs z n) (vecD aO n)
      = dotF (flatWV cs z m) (vecD v m) + flatWc cs z := by
  unfold flatWL flatWR flatWO flatWV flatWc
  rw [dotF_sum_left, dotF_sum_left, dotF_sum_left, dotF_sum_left,
    ← Finset.sum_add_distrib, ← Finset.sum_add_distrib, ← Finset.sum_add_distrib]
  apply Finset.sum_congr rfl
  intro q hq
  have hql : q < cs.length := Finset.mem_range.mp hq
  have hmem : cs.getD q ⟨[], 0⟩ ∈ cs := by
    rw [List.getD_eq_getElem cs ⟨[], 0⟩ hql]
    exact List.getElem_mem hql
  have heval := hsat _ hmem
  rw [eval_flatten (cs.getD q ⟨[], 0⟩) n m v aL aR aO (hwf _ hmem)] at heval
  rw [dotF_smul_left, dotF_smul_left, dotF_smul_left, dotF_smul_left,
    dotF_neg_left]
  linear_combination (z ^ (q + 1)) * heval

/-- The homomorphic reconstruction identity for the omitted coefficient
`t_2`: under gate and linear-constraint satisfaction (and a nonzero `y`
challenge), `t_2` equals the committed-input contribution plus the
flattened constant plus the public `delta(y, z)`. -/
theorem t2_identity (cs : List (LinearCombination F)) (y z : F)
    (v aL aR aO : List F) (n m : ℕ) (hy : y ≠ 0)
    (hwf : ∀ lc ∈ cs, lc.wf n m)
    (hsat : ∀ lc ∈ cs, lc.eval (assignmentOf v aL aR aO) = 0)
    (hmul : ∀ i : Fin n, vecD aL n i * vecD aR n i = vecD aO n i) :
    dotF (fun i => vecD aL n i + (y⁻¹) ^ (i : ℕ) * flatWR cs z n i)
        (fun i => y ^ (i : ℕ) * vecD aR n i + flatWL cs z n i)
      + dotF (vecD aO n) (fun i => flatWO cs z n i - y ^ (i : ℕ))
      = dotF (flatWV cs z m) (vecD v m) + flatWc cs z + deltaYZ cs y z n := by
  have expand : dotF (fun i => vecD aL n i + (y⁻¹) ^ (i : ℕ) * flatWR cs z n i)
        (fun i => y ^ (i : ℕ) * vecD aR n i + flatWL cs z n i)
      + dotF (vecD aO n) (fun i => flatWO cs z n i - y ^ (i : ℕ))
      = dotF (flatWL cs z n) (vecD aL n) + dotF (flatWR cs z n) (vecD aR n)
        + dotF (flatWO cs z n) (vecD aO n) + deltaYZ cs y z n := by
    simp only [dotF, deltaYZ, ← Finset.sum_add_distrib]
    apply Finset.sum_congr rfl
    intro i _
    have h1 : (y⁻¹) ^ (i : ℕ) * y ^ (i : ℕ) = 1 := by
      rw [← mul_pow, inv_mul_cancel₀ hy, one_pow]
    linear_combination y ^ (i : ℕ) * hmul i
      + flatWR cs z n i * vecD aR n i * h1
  rw [expand, flatten_satisfied cs z v aL aR aO n m hwf hsat]

/-- Evaluating `t(X) = ⟨l(X), r(X)⟩` at `x` via the coefficient inner
products. -/
theorem t_eval_dot {n : ℕ} (l1 l2 l3 r0 r1 r3 : Fin n → F) (x : F) :
    dotF (fun i => l1 i * x + l2 i * x ^ 2 + l3 i * x ^ 3)
        (fun i => r0 i + r1 i * x + r3 i * x ^ 3)
      = dotF l1 r0 * x + (dotF l1 r1 + dotF l2 r0) * x ^ 2
        + (dotF l2 r1 + dotF l3 r0) * x ^ 3
        + (dotF l1 r3 + dotF l3 r1) * x ^ 4
        + dotF l2 r3 * x ^ 5 + dotF l3 r3 * x ^ 6 := by
  simp only [dotF, Finset.sum_mul, add_mul, ← Finset.sum_add_distrib]
  apply Finset.sum_congr rfl
  intro i _
  ring

/-- Session-level completeness: a committed verifier session holding the
prover's transcript, gate count, constraint list and input commitments
accepts the proof an honest prover builds from satisfied, well-formed
constraints. -/
theorem verify_accepts (p1 : ProverCS F) (rng : ℕ → F)
    (cv : CommittedVerifierCS F)
    (hTr : cv.transcript = p1.transcript)
    (hN : cv.numMults = p1.aL.length)
    (hCs : cv.constraints = p1.constraints)
    (hV : cv.V = (List.range p1.v.length).map fun j =>
      (⟨p1.v.getD j 0, p1.v_blinding.getD j 0⟩ : PedersenCom F))
    (hwf : ∀ lc ∈ p1.constraints, lc.wf p1.aL.length p1.v.length)
    (hls : p1.linSat) (hms : p1.mulSat) :
    cv.verify (buildProof (commitResult p1 rng) rng) = .ok () := by
  have hy : verifyY cv (buildProof (commitResult p1 rng) rng)
      = (commitResult p1 rng).chalY := by
    unfold verifyY verifyTr1
    rw [hTr]
    rfl
  have hz : verifyZ cv (buildProof (commitResult p1 rng) rng)
      = (commitResult p1 rng).chalZ := by
    unfold verifyZ verifyTr1
    rw [hTr]
    rfl
  have hx : verifyX cv (buildProof (commitResult p1 rng) rng)
      = proveX (commitResult p1 rng) rng := by
    unfold verifyX verifyTr2 verifyTr1
    rw [hTr]
    rfl
  have hm : cv.V.length = p1.v.length := by rw [hV]; simp
  have hlen : proofLengthsOk (buildProof (commitResult p1 rng) rng) cv.numMults := by
    rw [hN]
    refine ⟨?_, ?_, ?_, ?_, ?_, ?_, ?_, ?_⟩ <;>
      simp [buildProof, commitResult, commitAI, commitAO, commitScom,
        commitSL, commitSR]
  have hmulv : ∀ i : Fin p1.aL.length,
      vecD p1.aL p1.aL.length i * vecD p1.aR p1.aL.length i
        = vecD p1.aO p1.aL.length i :=
    fun i => hms i (List.mem_range.mpr i.isLt)
  have ht2 : pt2 p1.aL.length (commitResult p1 rng)
      = dotF (flatWV p1.constraints (commitResult p1 rng).chalZ
            (commitResult p1 rng).v.length)
          (vecD p1.v (commitResult p1 rng).v.length)
        + flatWc p1.constraints (commitResult p1 rng).chalZ
        + deltaYZ p1.constraints (commitResult p1 rng).chalY
            (commitResult p1 rng).chalZ p1.aL.length :=
    t2_identity p1.constraints _ _ p1.v p1.aL p1.aR p1.aO p1.aL.length
      p1.v.length (challengeScalar_ne_zero _) hwf hls hmulv
  have hkey : ∀ (M : ℕ), M = p1.v.length → ∀ (V : List (PedersenCom F)),
      V = ((List.range p1.v.length).map fun j =>
        (⟨p1.v.getD j 0, p1.v_blinding.getD j 0⟩ : PedersenCom F)) →
      dotF (flatWV p1.constraints (commitResult p1 rng).chalZ M)
          (fun j : Fin M => (V.getD (j : ℕ) ⟨0, 0⟩).value)
        = dotF (flatWV p1.constraints (commitResult p1 rng).chalZ
            (commitResult p1 rng).v.length)
          (vecD p1.v (commitResult p1 rng).v.length)
      ∧ dotF (flatWV p1.constraints (commitResult p1 rng).chalZ M)
          (fun j : Fin M => (V.getD (j : ℕ) ⟨0, 0⟩).blinding)
        = dotF (flatWV p1.constraints (commitResult p1 rng).chalZ
            (commitResult p1 rng).v.length)
          (vecD p1.v_blinding (commitResult p1 rng).v.length) := by
    intro M hM V hVl
    subst hM
    subst hVl
    constructor
    · refine congrArg _ (funext fun j => ?_)
      have hj : (j : ℕ) < p1.v.length := j.isLt
      rw [List.getD_eq_getElem _ _ (by simpa using hj), List.getElem_map,
        List.getElem_range]
      rfl
    · refine congrArg _ (funext fun j => ?_)
      have hj : (j : ℕ) < p1.v.length := j.isLt
      rw [List.getD_eq_getElem _ _ (by simpa using hj), List.getElem_map,
        List.getElem_range]
      rfl
  have hT : tCheck cv (buildProof (commitResult p1 rng) rng)
      (verifyY cv (buildProof (commitResult p1 rng) rng))
      (verifyZ cv (buildProof (commitResult p1 rng) rng))
      (verifyX cv (buildProof (commitResult p1 rng) rng)) := by
    rw [hy, hz, hx]
    dsimp only [tCheck, buildProof, ptT1, ptT3, ptT4, ptT5, ptT6]
    simp only [show (commitResult p1 rng).aL = p1.aL from rfl,
      show (commitResult p1 rng).v = p1.v from rfl,
      show (commitResult p1 rng).v_blinding = p1.v_blinding from rfl,
      show (commitResult p1 rng).constraints = p1.constraints from rfl,
      show (commitResult p1 rng).sL = commitSL p1 rng from rfl,
      show (commitResult p1 rng).sR = commitSR p1 rng from rfl,
      show (commitResult p1 rng).comAI = commitAI p1 rng from rfl,
      show (commitResult p1 rng).comAO = commitAO p1 rng from rfl,
      show (commitResult p1 rng).comS = commitScom p1 rng from rfl,
      show (commitResult p1 rng).iBlind = rng 0 from rfl,
      show (commitResult p1 rng).oBlind = rng 1 from rfl,
      show (commitResult p1 rng).sBlind = rng 2 from rfl,
      commitAI, commitAO, commitScom]
    constructor
    · rw [hCs, hN, (hkey cv.V.length hm cv.V hV).1]
      linear_combination (proveX (commitResult p1 rng) rng) ^ 2 * ht2
    · rw [hCs, (hkey cv.V.length hm cv.V hV).2]
  have hI : ippCheck cv (buildProof (commitResult p1 rng) rng)
      (verifyY cv (buildProof (commitResult p1 rng) rng))
      (verifyZ cv (buildProof (commitResult p1 rng) rng))
      (verifyX cv (buildProof (commitResult p1 rng) rng)) := by
    rw [hy, hz, hx]
    dsimp only [ippCheck, buildProof, ptT1, ptT3, ptT4, ptT5, ptT6]
    simp only [show (commitResult p1 rng).aL = p1.aL from rfl,
      show (commitResult p1 rng).v = p1.v from rfl,
      show (commitResult p1 rng).v_blinding = p1.v_blinding from rfl,
      show (commitResult p1 rng).constraints = p1.constraints from rfl,
      show (commitResult p1 rng).sL = commitSL p1 rng from rfl,
      show (commitResult p1 rng).sR = commitSR p1 rng from rfl,
      show (commitResult p1 rng).comAI = commitAI p1 rng from rfl,
      show (commitResult p1 rng).comAO = commitAO p1 rng from rfl,
      show (commitResult p1 rng).comS = commitScom p1 rng from rfl,
      show (commitResult p1 rng).iBlind = rng 0 from rfl,
      show (commitResult p1 rng).oBlind = rng 1 from rfl,
      show (commitResult p1 rng).sBlind = rng 2 from rfl,
      commitAI, commitAO, commitScom]
    have hgen : ∀ (N : ℕ), N = p1.aL.length →
        ((List.ofFn fun i : Fin p1.aL.length =>
            pl1 p1.aL.length (commitResult p1 rng) i * proveX (commitResult p1 rng) rng
              + pl2 p1.aL.length (commitResult p1 rng) i * proveX (commitResult p1 rng) rng ^ 2
              + pl3 p1.aL.length (commitResult p1 rng) i * proveX (commitResult p1 rng) rng ^ 3)
          = List.ofFn fun i : Fin N =>
            proveX (commitResult p1 rng) rng
                * vecD (List.ofFn (vecD p1.aL p1.aL.length)) N i
              + proveX (commitResult p1 rng) rng ^ 2
                * vecD (List.ofFn (vecD p1.aO p1.aL.length)) N i
              + proveX (commitResult p1 rng) rng ^ 3
                * vecD (commitSL p1 rng) N i
              + proveX (commitResult p1 rng) rng
                * (((commitResult p1 rng).chalY⁻¹) ^ (i : ℕ)
                  * flatWR p1.constraints (commitResult p1 rng).chalZ N i))
        ∧ ((List.ofFn fun i : Fin p1.aL.length =>
            pr0 p1.aL.length (commitResult p1 rng) i
              + pr1 p1.aL.length (commitResult p1 rng) i * proveX (commitResult p1 rng) rng
              + pr3 p1.aL.length (commitResult p1 rng) i * proveX (commitResult p1 rng) rng ^ 3)
          = List.ofFn fun i : Fin N =>
            (commitResult p1 rng).chalY ^ (i : ℕ)
                * (proveX (commitResult p1 rng) rng
                    * vecD (List.ofFn (vecD p1.aR p1.aL.length)) N i
                  + proveX (commitResult p1 rng) rng ^ 2
                    * vecD (List.ofFn (fun _ : Fin p1.aL.length => (0 : F))) N i
                  + proveX (commitResult p1 rng) rng ^ 3
                    * vecD (commitSR p1 rng) N i)
              + proveX (commitResult p1 rng) rng
                * flatWL p1.constraints (commitResult p1 rng).chalZ N i
              + flatWO p1.constraints (commitResult p1 rng).chalZ N i
              - (commitResult p1 rng).chalY ^ (i : ℕ)) := by
      intro N hNe
      subst hNe
      constructor
      · refine congrArg List.ofFn (funext fun i => ?_)
        dsimp only [pl1, pl2, pl3, commitResult]
        rw [vecD_ofFn, vecD_ofFn]
        ring
      · refine congrArg List.ofFn (funext fun i => ?_)
        dsimp only [pr0, pr1, pr3, commitResult]
        rw [vecD_ofFn, vecD_ofFn]
        ring
    refine ⟨by ring, ?_, ?_, ?_⟩
    · rw [hCs]
      exact (hgen cv.numMults hN).1
    · rw [hCs]
      exact (hgen cv.numMults hN).2
    · have step : dotF
          (fun i : Fin p1.aL.length =>
            pl1 p1.aL.length (commitResult p1 rng) i
                * proveX (commitResult p1 rng) rng
              + pl2 p1.aL.length (commitResult p1 rng) i
                * proveX (commitResult p1 rng) rng ^ 2
              + pl3 p1.aL.length (commitResult p1 rng) i
                * proveX (commitResult p1 rng) rng ^ 3)
          (fun i : Fin p1.aL.length =>
            pr0 p1.aL.length (commitResult p1 rng) i
              + pr1 p1.aL.length (commitResult p1 rng) i
                * proveX (commitResult p1 rng) rng
              + pr3 p1.aL.length (commitResult p1 rng) i
                * proveX (commitResult p1 rng) rng ^ 3)
          = pt1 p1.aL.length (commitResult p1 rng) * proveX (commitResult p1 rng) rng
            + pt2 p1.aL.length (commitResult p1 rng) * proveX (commitResult p1 rng) rng ^ 2
            + pt3 p1.aL.length (commitResult p1 rng) * proveX (commitResult p1 rng) rng ^ 3
            + pt4 p1.aL.length (commitResult p1 rng) * proveX (commitResult p1 rng) rng ^ 4
            + pt5 p1.aL.length (commitResult p1 rng) * proveX (commitResult p1 rng) rng ^ 5
            + pt6 p1.aL.length (commitResult p1 rng) * proveX (commitResult p1 rng) rng ^ 6 := by
        rw [t_eval_dot]
        dsimp only [pt1, pt2, pt3, pt4, pt5, pt6]
      rw [hN]
      refine Eq.trans ?_ step
      exact congrArg₂ (fun a b => dotF a b)
        (funext fun i => vecD_ofFn _ ⟨(i : ℕ), i.isLt⟩)
        (funext fun i => vecD_ofFn _ ⟨(i : ℕ), i.isLt⟩)
  unfold CommittedVerifierCS.verify
  rw [if_pos hlen, if_pos ⟨hT, hI⟩]

/-- Claim C1: completeness of the prove/verify round trip.  For any
constraint-building routines that, run against the fresh prover and
verifier sessions, register the same constraint structure (gate tables
`aL`, `aR`, `aO` of equal count and the same linear-constraint list), where
the registered constraints reference only allocated wires, are genuinely
satisfied by the secret inputs, and fit the generator capacity,
`R1CSProof::prove` succeeds and the proof it returns is accepted by
`R1CSProof::verify` run with the same public parameters, the returned
commitments and the verifier-side routine — for all secret inputs, all
blinding choices and all sampled randomness. -/
theorem r1cs_completeness
    (bp_gens : BulletproofGens) (pc_gens : PedersenGens) (transcript : List F)
    (v v_blinding : List F) (rng rng2 : ℕ → F)
    (builderP : ProverCS F → List (Variable F) → Except R1CSError (ProverCS F))
    (builderV : VerifierCS F → List (Variable (OpaqueScalar F)) →
      Except R1CSError (VerifierCS F))
    (aL aR aO : List F) (cs : List (LinearCombination F))
    (hbP : builderP (ProverCS.new bp_gens pc_gens transcript v v_blinding).1
        (ProverCS.new bp_gens pc_gens transcript v v_blinding).2.1
      = .ok { (ProverCS.new bp_gens pc_gens transcript v v_blinding).1 with
          aL := aL, aR := aR, aO := aO, constraints := cs })
    (hbV : builderV (VerifierCS.new bp_gens pc_gens transcript
          (ProverCS.new bp_gens pc_gens transcript v v_blinding).2.2).1
        (VerifierCS.new bp_gens pc_gens transcript
          (ProverCS.new bp_gens pc_gens transcript v v_blinding).2.2).2
      = .ok { (VerifierCS.new bp_gens pc_gens transcript
          (ProverCS.new bp_gens pc_gens transcript v v_blinding).2.2).1 with
          numMults := aL.length, constraints := cs })
    (hcap : aL.length ≤ bp_gens.gensCapacity)
    (hmul : ∀ i < aL.length, aL.getD i 0 * aR.getD i 0 = aO.getD i 0)
    (hsat : ∀ lc ∈ cs, lc.eval (assignmentOf v aL aR aO) = 0)
    (hwf : ∀ lc ∈ cs, lc.wf aL.length v.length) :
    ∃ pf : R1CSProof F,
      R1CSProof.prove bp_gens pc_gens transcript v v_blinding builderP rng
        = .ok (pf, (ProverCS.new bp_gens pc_gens transcript v v_blinding).2.2)
      ∧ R1CSProof.verify pf bp_gens pc_gens transcript
          (ProverCS.new bp_gens pc_gens transcript v v_blinding).2.2 builderV rng2
        = .ok () := by
  have hms : ({ (ProverCS.new bp_gens pc_gens transcript v v_blinding).1 with
      aL := aL, aR := aR, aO := aO, constraints := cs } : ProverCS F).mulSat :=
    fun i hi => hmul i (List.mem_range.mp hi)
  have hls : ({ (ProverCS.new bp_gens pc_gens transcript v v_blinding).1 with
      aL := aL, aR := aR, aO := aO, constraints := cs } : ProverCS F).linSat :=
    fun lc hlc => hsat lc hlc
  have hnc : ¬ ({ (ProverCS.new bp_gens pc_gens transcript v v_blinding).1 with
      aL := aL, aR := aR, aO := aO, constraints := cs } : ProverCS F).bpCapacity
      < ({ (ProverCS.new bp_gens pc_gens transcript v v_blinding).1 with
      aL := aL, aR := aR, aO := aO, constraints := cs } : ProverCS F).aL.length :=
    not_lt.mpr hcap
  have hcommit : ({ (ProverCS.new bp_gens pc_gens transcript v v_blinding).1 with
      aL := aL, aR := aR, aO := aO, constraints := cs } : ProverCS F).commit rng
      = .ok (commitResult
        { (ProverCS.new bp_gens pc_gens transcript v v_blinding).1 with
          aL := aL, aR := aR, aO := aO, constraints := cs } rng) := by
    unfold ProverCS.commit
    rw [if_neg hnc, if_pos ⟨hms, hls⟩]
  have hnv : ¬ ({ (VerifierCS.new bp_gens pc_gens transcript
      (ProverCS.new bp_gens pc_gens transcript v v_blinding).2.2).1 with
      numMults := aL.length, constraints := cs } : VerifierCS F).bpCapacity
      < ({ (VerifierCS.new bp_gens pc_gens transcript
      (ProverCS.new bp_gens pc_gens transcript v v_blinding).2.2).1 with
      numMults := aL.length, constraints := cs } : VerifierCS F).numMults :=
    not_lt.mpr hcap
  have hvcommit : ({ (VerifierCS.new bp_gens pc_gens transcript
      (ProverCS.new bp_gens pc_gens transcript v v_blinding).2.2).1 with
      numMults := aL.length, constraints := cs } : VerifierCS F).commit
      = .ok ⟨(VerifierCS.new bp_gens pc_gens transcript
          (ProverCS.new bp_gens pc_gens transcript v v_blinding).2.2).1.transcript,
        (VerifierCS.new bp_gens pc_gens transcript
          (ProverCS.new bp_gens pc_gens transcript v v_blinding).2.2).1.V,
        aL.length, cs⟩ := by
    unfold VerifierCS.commit
    rw [if_neg hnv]
  have hfin : (⟨(VerifierCS.new bp_gens pc_gens transcript
        (ProverCS.new bp_gens pc_gens transcript v v_blinding).2.2).1.transcript,
      (VerifierCS.new bp_gens pc_gens transcript
        (ProverCS.new bp_gens pc_gens transcript v v_blinding).2.2).1.V,
      aL.length, cs⟩ : CommittedVerifierCS F).verify
      (buildProof (commitResult
        { (ProverCS.new bp_gens pc_gens transcript v v_blinding).1 with
          aL := aL, aR := aR, aO := aO, constraints := cs } rng) rng)
      = .ok () :=
    verify_accepts
      { (ProverCS.new bp_gens pc_gens transcript v v_blinding).1 with
        aL := aL, aR := aR, aO := aO, constraints := cs } rng
      _ rfl rfl rfl rfl hwf hls hms
  refine ⟨buildProof (commitResult
    { (ProverCS.new bp_gens pc_gens transcript v v_blinding).1 with
      aL := aL, aR := aR, aO := aO, constraints := cs } rng) rng, ?_, ?_⟩
  · simp [R1CSProof.prove, proveWithTrace, hbP, hcommit, CommittedProverCS.prove]
  · simp [R1CSProof.verify, verifyWithTrace, hbV, hvcommit, hfin]

/-- Witness for claim C1: in the specification's concrete scenario
(`a = 3`, `b = 5`, output constrained to the public constant 15) the
proving call succeeds and the verifying call accepts the returned proof
with the returned commitments. -/
theorem r1cs_completeness_witness :
    (∀ lc ∈ [scLc1, scLc2, scLc3],
      lc.eval (assignmentOf scV [3] [5] [15]) = 0)
    ∧ ([3] : List K101).length ≤ scBp.gensCapacity
    ∧ ∃ pf : R1CSProof K101,
        R1CSProof.prove scBp scPc scT0 scV scVB scBuilderP scRng
          = .ok (pf, (ProverCS.new scBp scPc scT0 scV scVB).2.2)
        ∧ R1CSProof.verify pf scBp scPc scT0
            (ProverCS.new scBp scPc scT0 scV scVB).2.2 scBuilderV scRng
          = .ok () :=
  ⟨by decide, by decide,
   r1cs_completeness scBp scPc scT0 scV scVB scRng scRng scBuilderP scBuilderV
     [3] [5] [15] [scLc1, scLc2, scLc3] rfl rfl (by decide) (by decide)
     (by decide) (by decide)⟩

/-- Claim C7: a failure reported by the caller's constraint-building closure
is returned verbatim by `R1CSProof::prove` (respectively
`R1CSProof::verify`), and neither the commit step nor the prove/verify step
is executed afterwards. -/
theorem builder_error_short_circuits
    (bp_gens : BulletproofGens) (pc_gens : PedersenGens) (transcript : List F)
    (v v_blinding : List F)
    (builderP : ProverCS F → List (Variable F) → Except R1CSError (ProverCS F))
    (rng : ℕ → F) (proof : R1CSProof F) (commitments : List (PedersenCom F))
    (builderV : VerifierCS F → List (Variable (OpaqueScalar F)) →
      Except R1CSError (VerifierCS F)) (rng2 : ℕ → F) (e e2 : R1CSError) :
    (builderP (ProverCS.new bp_gens pc_gens transcript v v_blinding).1
        (ProverCS.new bp_gens pc_gens transcript v v_blinding).2.1 = .error e →
      proveWithTrace bp_gens pc_gens transcript v v_blinding builderP rng
        = (.error e, [.construct, .builderCall]))
    ∧ (builderV (VerifierCS.new bp_gens pc_gens transcript commitments).1
        (VerifierCS.new bp_gens pc_gens transcript commitments).2 = .error e2 →
      verifyWithTrace proof bp_gens pc_gens transcript commitments builderV rng2
        = (.error e2, [.construct, .builderCall])) := by
  constructor
  · intro hb
    simp [proveWithTrace, hb]
  · intro hb
    simp [verifyWithTrace, hb]

/-- Witness for claim C7: concrete failing closures make both pipelines
return the closure's error with only construction and the builder call
performed. -/
theorem builder_error_short_circuits_witness :
    (scBuilderErr (ProverCS.new scBp scPc scT0 scV scVB).1
        (ProverCS.new scBp scPc scT0 scV scVB).2.1 = .error (.gadgetError 42)
      ∧ proveWithTrace scBp scPc scT0 scV scVB scBuilderErr scRng
          = (.error (.gadgetError 42), [.construct, .builderCall]))
    ∧ (scBuilderVErr (VerifierCS.new scBp scPc scT0 scComs).1
        (VerifierCS.new scBp scPc scT0 scComs).2 = .error (.gadgetError 7)
      ∧ verifyWithTrace scProof scBp scPc scT0 scComs scBuilderVErr scRng
          = (.error (.gadgetError 7), [.construct, .builderCall])) :=
  ⟨⟨rfl,
    (builder_error_short_circuits scBp scPc scT0 scV scVB scBuilderErr scRng
        scProof scComs scBuilderVErr scRng (.gadgetError 42) (.gadgetError 7)).1 rfl⟩,
   ⟨rfl,
    (builder_error_short_circuits scBp scPc scT0 scV scVB scBuilderErr scRng
        scProof scComs scBuilderVErr scRng (.gadgetError 42) (.gadgetError 7)).2 rfl⟩⟩

/-- Claim C6: every error, from whichever phase (constraint building,
commit, prove/verify), is returned unchanged to the immediate caller with
no retry: an error return of `R1CSProof::prove` (respectively
`R1CSProof::verify`) is exactly an error of its first failing phase, and
the caller then receives no proof object and no partial verification
result. -/
theorem errors_propagated_unchanged
    (bp_gens : BulletproofGens) (pc_gens : PedersenGens) (transcript : List F)
    (v v_blinding : List F)
    (builderP : ProverCS F → List (Variable F) → Except R1CSError (ProverCS F))
    (rng : ℕ → F) (proof : R1CSProof F) (commitments : List (PedersenCom F))
    (builderV : VerifierCS F → List (Variable (OpaqueScalar F)) →
      Except R1CSError (VerifierCS F)) (rng2 : ℕ → F) (e e2 : R1CSError) :
    (R1CSProof.prove bp_gens pc_gens transcript v v_blinding builderP rng
        = .error e ↔
      (builderP (ProverCS.new bp_gens pc_gens transcript v v_blinding).1
          (ProverCS.new bp_gens pc_gens transcript v v_blinding).2.1 = .error e
        ∨ (∃ p1, builderP (ProverCS.new bp_gens pc_gens transcript v v_blinding).1
            (ProverCS.new bp_gens pc_gens transcript v v_blinding).2.1 = .ok p1
          ∧ p1.commit rng = .error e)
        ∨ (∃ p1 cp, builderP (ProverCS.new bp_gens pc_gens transcript v v_blinding).1
            (ProverCS.new bp_gens pc_gens transcript v v_blinding).2.1 = .ok p1
          ∧ p1.commit rng = .ok cp ∧ cp.prove rng = .error e)))
    ∧ (R1CSProof.verify proof bp_gens pc_gens transcript commitments builderV rng2
        = .error e2 ↔
      (builderV (VerifierCS.new bp_gens pc_gens transcript commitments).1
          (VerifierCS.new bp_gens pc_gens transcript commitments).2 = .error e2
        ∨ (∃ v1, builderV (VerifierCS.new bp_gens pc_gens transcript commitments).1
            (VerifierCS.new bp_gens pc_gens transcript commitments).2 = .ok v1
          ∧ v1.commit = .error e2)
        ∨ (∃ v1 cv, builderV (VerifierCS.new bp_gens pc_gens transcript commitments).1
            (VerifierCS.new bp_gens pc_gens transcript commitments).2 = .ok v1
          ∧ v1.commit = .ok cv ∧ cv.verify proof = .error e2))) := by
  constructor
  · constructor
    · intro h
      cases hb : builderP (ProverCS.new bp_gens pc_gens transcript v v_blinding).1
          (ProverCS.new bp_gens pc_gens transcript v v_blinding).2.1 with
      | error eb =>
        refine Or.inl ?_
        simpa [R1CSProof.prove, proveWithTrace, hb] using h
      | ok p1 =>
        cases hc : p1.commit rng with
        | error ec =>
          refine Or.inr (Or.inl ⟨p1, rfl, ?_⟩)
          simpa [R1CSProof.prove, proveWithTrace, hb, hc] using h
        | ok cp =>
          exfalso
          simp [R1CSProof.prove, proveWithTrace, hb, hc,
            CommittedProverCS.prove] at h
    · intro h
      rcases h with h | ⟨p1, h, h2⟩ | ⟨p1, cp, h, h2, h3⟩
      · simp [R1CSProof.prove, proveWithTrace, h]
      · simp [R1CSProof.prove, proveWithTrace, h, h2]
      · simp [CommittedProverCS.prove] at h3
  · constructor
    · intro h
      cases hb : builderV (VerifierCS.new bp_gens pc_gens transcript commitments).1
          (VerifierCS.new bp_gens pc_gens transcript commitments).2 with
      | error eb =>
        refine Or.inl ?_
        simpa [R1CSProof.verify, verifyWithTrace, hb] using h
      | ok v1 =>
        cases hc : v1.commit with
        | error ec =>
          refine Or.inr (Or.inl ⟨v1, rfl, ?_⟩)
          simpa [R1CSProof.verify, verifyWithTrace, hb, hc] using h
        | ok cv =>
          cases hv : cv.verify proof with
          | error ev =>
            refine Or.inr (Or.inr ⟨v1, cv, rfl, hc, ?_⟩)
            simpa [R1CSProof.verify, verifyWithTrace, hb, hc, hv] using h
          | ok uu =>
            exfalso
            simp [R1CSProof.verify, verifyWithTrace, hb, hc, hv] at h
    · intro h
      rcases h with h | ⟨v1, h, h2⟩ | ⟨v1, cv, h, h2, h3⟩
      · simp [R1CSProof.verify, verifyWithTrace, h]
      · simp [R1CSProof.verify, verifyWithTrace, h, h2]
      · simp [R1CSProof.verify, verifyWithTrace, h, h2, h3]

/-- Claim C10: the commitment list returned by a successful
`R1CSProof::prove` does not depend on the constraint-building closure — two
successful calls agreeing on generators, transcript, secrets, blinding and
randomness but with different closures return identical commitment
lists. -/
theorem commitments_independent_of_builder
    (bp_gens : BulletproofGens) (pc_gens : PedersenGens) (transcript : List F)
    (v v_blinding : List F)
    (builder1 builder2 : ProverCS F → List (Variable F) →
      Except R1CSError (ProverCS F))
    (rng : ℕ → F) (pf1 pf2 : R1CSProof F) (cm1 cm2 : List (PedersenCom F))
    (h1 : R1CSProof.prove bp_gens pc_gens transcript v v_blinding builder1 rng
        = .ok (pf1, cm1))
    (h2 : R1CSProof.prove bp_gens pc_gens transcript v v_blinding builder2 rng
        = .ok (pf2, cm2)) :
    cm1 = cm2 :=
  (prove_commitments_fixed bp_gens pc_gens transcript v v_blinding builder1
      rng pf1 cm1 h1).trans
    (prove_commitments_fixed bp_gens pc_gens transcript v v_blinding builder2
      rng pf2 cm2 h2).symm

/-- Witness for claim C10: two different satisfied builders over the same
inputs both succeed and return the same commitment list. -/
theorem commitments_independent_of_builder_witness :
    R1CSProof.prove scBp scPc scT0 scV scVB scBuilderP scRng = .ok (scProof, scComs)
    ∧ R1CSProof.prove scBp scPc scT0 scV scVB scBuilderP2 scRng = .ok (scProof2, scComs)
    ∧ scComs = scComs :=
  ⟨rfl, rfl,
   commitments_independent_of_builder scBp scPc scT0 scV scVB scBuilderP
     scBuilderP2 scRng scProof scProof2 scComs scComs rfl rfl⟩

/-- Claim C4: a successful `R1CSProof::prove` returns, alongside the proof,
the commitment list computed by `ProverCS::new` during session construction
(before the closure runs), holding exactly one Pedersen commitment per
supplied secret, in the order the secrets were supplied. -/
theorem prove_returns_per_secret_commitments
    (bp_gens : BulletproofGens) (pc_gens : PedersenGens) (transcript : List F)
    (v v_blinding : List F)
    (builder : ProverCS F → List (Variable F) → Except R1CSError (ProverCS F))
    (rng : ℕ → F) (pf : R1CSProof F) (cm : List (PedersenCom F))
    (h : R1CSProof.prove bp_gens pc_gens transcript v v_blinding builder rng
        = .ok (pf, cm)) :
    cm = (ProverCS.new (F := F) bp_gens pc_gens transcript v v_blinding).2.2
    ∧ cm.length = v.length
    ∧ ∀ j, j < v.length →
        cm[j]? = some ⟨v.getD j 0, v_blinding.getD j 0⟩ := by
  have hcm := prove_commitments_fixed bp_gens pc_gens transcript v v_blinding
    builder rng pf cm h
  subst hcm
  refine ⟨rfl, ?_, ?_⟩
  · simp [ProverCS.new]
  · intro j hj
    simp [ProverCS.new, List.getElem?_range, hj]

/-- Witness for claim C4: in the concrete scenario the proving call returns
one commitment per secret, in order. -/
theorem prove_returns_per_secret_commitments_witness :
    R1CSProof.prove scBp scPc scT0 scV scVB scBuilderP scRng = .ok (scProof, scComs)
    ∧ scComs = (ProverCS.new scBp scPc scT0 scV scVB).2.2
    ∧ scComs.length = scV.length
    ∧ ∀ j, j < scV.length →
        scComs[j]? = some ⟨scV.getD j 0, scVB.getD j 0⟩ :=
  ⟨rfl,
   prove_returns_per_secret_commitments scBp scPc scT0 scV scVB scBuilderP
     scRng scProof scComs rfl⟩

/-- Claim C5: if the concrete wire assignment left by the builder violates a
registered multiplication relation or makes a registered linear constraint
nonzero, `R1CSProof::prove` returns a constraint-violation error (and hence
no proof). -/
theorem unsatisfied_constraints_reject
    (bp_gens : BulletproofGens) (pc_gens : PedersenGens) (transcript : List F)
    (v v_blinding : List F)
    (builder : ProverCS F → List (Variable F) → Except R1CSError (ProverCS F))
    (rng : ℕ → F) (p1 : ProverCS F)
    (hb : builder (ProverCS.new bp_gens pc_gens transcript v v_blinding).1
        (ProverCS.new bp_gens pc_gens transcript v v_blinding).2.1 = .ok p1)
    (hcap : ¬ p1.bpCapacity < p1.aL.length)
    (hviol : ¬ (p1.mulSat ∧ p1.linSat)) :
    R1CSProof.prove bp_gens pc_gens transcript v v_blinding builder rng
      = .error .constraintViolation := by
  simp [R1CSProof.prove, proveWithTrace, hb, ProverCS.commit, hcap, hviol]

/-- Witness for claim C5: in the specification's failing scenario (output
wire constrained to the public constant 16 while the gate yields 15) the
proving call fails with a constraint violation before any proof is
produced. -/
theorem unsatisfied_constraints_reject_witness :
    scBuilderPbad (ProverCS.new scBp scPc scT0 scV scVB).1
        (ProverCS.new scBp scPc scT0 scV scVB).2.1 = .ok scP1bad
    ∧ ¬ scP1bad.bpCapacity < scP1bad.aL.length
    ∧ ¬ (scP1bad.mulSat ∧ scP1bad.linSat)
    ∧ R1CSProof.prove scBp scPc scT0 scV scVB scBuilderPbad scRng
        = .error .constraintViolation :=
  ⟨rfl, by decide, by decide,
   unsatisfied_constraints_reject scBp scPc scT0 scV scVB scBuilderPbad scRng
     scP1bad rfl (by decide) (by decide)⟩

/-- Claim C8: the variable handles handed to the verifier-side closure are
typed over `OpaqueScalar` with every assignment `Unknown` (the verifier
session never holds a concrete secret value), while the prover-side closure
receives concrete handles whose assignments are `Known` with the supplied
secrets, in order. -/
theorem verifier_vars_unknown (bp_gens : BulletproofGens)
    (pc_gens : PedersenGens) (transcript : List F)
    (commitments : List (PedersenCom F)) (v v_blinding : List F) :
    (∀ var ∈ (VerifierCS.new (F := F) bp_gens pc_gens transcript commitments).2,
      var.assignment = Assignment.Unknown)
    ∧ (∀ j, j < v.length →
        ((ProverCS.new (F := F) bp_gens pc_gens transcript v v_blinding).2.1)[j]?
          = some ⟨.Committed j, .Known (v.getD j 0)⟩) := by
  constructor
  · intro var hvar
    simp [VerifierCS.new, List.mem_map] at hvar
    obtain ⟨j, _, rfl⟩ := hvar
    rfl
  · intro j hj
    simp [ProverCS.new, List.getElem?_range, hj]

/-- Witness for claim C8: in the concrete scenario the first verifier-side
handle is `Unknown` and the first prover-side handle is `Known 3`. -/
theorem verifier_vars_unknown_witness :
    ((VerifierCS.new scBp scPc scT0 scComs).2.getD 0 ⟨.One, .Unknown⟩
        ∈ (VerifierCS.new scBp scPc scT0 scComs).2
      ∧ ((VerifierCS.new scBp scPc scT0 scComs).2.getD 0 ⟨.One, .Unknown⟩).assignment
          = Assignment.Unknown)
    ∧ (0 < scV.length
      ∧ ((ProverCS.new scBp scPc scT0 scV scVB).2.1)[0]?
          = some ⟨.Committed 0, .Known 3⟩) :=
  ⟨⟨by decide,
    (verifier_vars_unknown scBp scPc scT0 scComs scV scVB).1 _ (by decide)⟩,
   ⟨by decide,
    (verifier_vars_unknown scBp scPc scT0 scComs scV scVB).2 0 (by decide)⟩⟩

end CircuitProof
